/-
Verification of the LEGEND EXPERT photo-enhancer bot (src/main.py) against its
natural-language specification.

The development shallowly embeds the Python module:
  * the module-level dict `verified_users` becomes a `Cache` (a map from user
    id to expiry time, both modelled as `Nat` seconds);
  * `is_verified` / the inline `verified_users[user.id] = time.time() +
    VERIFIED_TTL` assignment become explicit state-passing functions;
  * `check_user_membership` takes the outcome of the external
    `get_chat_member` call as an `Except` value (an exception or a status
    string);
  * the image pipeline `enhance_image_bytes_sync` acts on a symbolic `Bytes`
    type: pixel-level transforms are abstract constructors recording the exact
    operation and its parameters, while the dimension arithmetic (including
    Python's IEEE-754 double rounding in `2000 / max(im.size)` and
    `int(im.width * scale)`) is modelled exactly over `ℚ`;
  * `photo_handler` becomes a function from the cache, the current time and
    the environment's responses to an outcome (normal return or propagated
    exception), the new cache, a list of side effects and the visited states
    of the spec's state machine.
-/
import Mathlib

namespace PhotoBot

/-! ## Verification cache

Embeds the module-level state `verified_users = {}` (a dict from user id to
expiry timestamp) together with `VERIFIED_TTL = 12 * 3600`.  Time is `Nat`
seconds. -/

def Cache : Type := Nat → Option Nat

def emptyCache : Cache := fun _ => none

def cacheGet (c : Cache) (u : Nat) : Option Nat := c u

/-- `del verified_users[user_id]` -/
def cacheDel (c : Cache) (u : Nat) : Cache := fun v => if v = u then none else c v

/-- `verified_users[user_id] = e` -/
def cacheSet (c : Cache) (u : Nat) (e : Nat) : Cache :=
  fun v => if v = u then some e else c v

def VERIFIED_TTL : Nat := 12 * 3600

/-- Embedding of `is_verified` (src/main.py lines 89-96).  Returns the boolean
result together with the cache after the call (the function lazily deletes an
entry found expired).  `if not exp` in Python is true both when the key is
absent and when the stored expiry is the number 0, so the embedding tests
`exp = 0` separately; `time.time() > exp` expires the entry only when the
current time is strictly greater than the stored expiry. -/
def is_verified (c : Cache) (t : Nat) (u : Nat) : Bool × Cache :=
  match cacheGet c u with
  | none => (false, c)
  | some exp =>
    if exp = 0 then (false, c)
    else if exp < t then (false, cacheDel c u)
    else (true, c)

/-- Embedding of the inline cache write
`verified_users[user.id] = time.time() + VERIFIED_TTL` (src/main.py line 153),
generalised over the ttl as in the spec's `mark_verified(user_id, ttl_seconds)`
contract. -/
def mark_verified (c : Cache) (t : Nat) (ttl : Nat) (u : Nat) : Cache :=
  cacheSet c u (t + ttl)

/-! ## Membership oracle adapter -/

/-- `ALLOWED_STATUS_STRINGS = {"creator", "owner", "administrator", "admin",
"member"}` (src/main.py line 43). -/
def ALLOWED_STATUS_STRINGS : List String :=
  ["creator", "owner", "administrator", "admin", "member"]

/-- Python's `str.lower()` (agrees with `String.toLower` character by
character; defined over the character list so the kernel can evaluate it). -/
def strLower (s : String) : String := ⟨s.data.map Char.toLower⟩

def listPrefixEq : List Char → List Char → Bool
  | [], _ => true
  | _ :: _, [] => false
  | a :: as, b :: bs => a == b && listPrefixEq as bs

/-- Python's substring containment `needle in hay`. -/
def strContains (hay needle : String) : Bool :=
  (List.range (hay.data.length + 1)).any
    (fun i => listPrefixEq needle.data (hay.data.drop i))

/-- Embedding of `check_user_membership` (src/main.py lines 77-87).  The
external `context.bot.get_chat_member` call is passed in as an `Except` value:
`.error e` is a raised exception, `.ok s` the member object's status string.
The code lowercases the status and tests each allowed string for substring
containment, returning `(True, None)`, `(False, "not_member")`, or — when the
external call raised — `(False, "error")`. -/
def check_user_membership (oracle : Except String String) : Bool × Option String :=
  match oracle with
  | .error _ => (false, some "error")
  | .ok st =>
    let status := strLower st
    if ALLOWED_STATUS_STRINGS.any (fun x => strContains status x) then (true, none)
    else (false, some "not_member")

/-- `check_user_membership` with its single external call threaded through a
call counter: `callIndex` is the index of the next external call, and the
result records the index after the function returns, so the number of
attempts made is the difference.  The body makes exactly one call, mirroring
the single `await context.bot.get_chat_member(...)` in the source. -/
def check_user_membership_counted (oracle : Nat → Except String String)
    (callIndex : Nat) : (Bool × Option String) × Nat :=
  let response := oracle callIndex
  (check_user_membership response, callIndex + 1)

/-! ## IEEE-754 double-precision rounding

`scale = 2000 / max(im.size)` and `int(im.width * scale)` in the source are
evaluated in Python floats (binary64).  Both the division and the
multiplication are correctly rounded (round to nearest, ties to even), and all
integers involved are far below `2 ^ 53`, so they convert to float exactly.
`roundDbl` is exact round-to-nearest-even onto the binary64 value set
(normal range; the values arising here are nowhere near subnormal or
overflow), expressed over `ℚ`. -/

/-- Round a rational to the nearest integer, ties to even. -/
def roundHalfEven (q : ℚ) : ℤ :=
  let f := ⌊q⌋
  let r := q - (f : ℚ)
  if r < 1/2 then f
  else if 1/2 < r then f + 1
  else if f % 2 = 0 then f else f + 1

/-- Round a rational to the nearest binary64 value (round to nearest, ties to
even), assuming the result lies in the normal range. -/
def roundDbl (q : ℚ) : ℚ :=
  if q = 0 then 0
  else
    let e : ℤ := Int.log 2 |q| - 52
    (roundHalfEven (q / 2 ^ e) : ℚ) * 2 ^ e

/-- The resized value of one dimension: `int(dim * scale)` where
`scale = 2000 / L` is computed in double precision, `dim * scale` is a double
multiplication, and `int` truncates toward zero (= floor for non-negative
values). -/
def resizeDim (dim L : Nat) : Nat :=
  (⌊roundDbl ((dim : ℚ) * roundDbl ((2000 : ℚ) / (L : ℚ)))⌋).toNat

/-! ## Image pipeline -/

/-- Abstract pixel content.  Each PIL operation used by the source is an
opaque constructor recording the operation and its parameters; the pipeline's
output term therefore records exactly which transforms ran, in which order,
with which parameters. -/
inductive Pix : Type where
  /-- content decoded from raw (non-JPEG-output) input bytes -/
  | src (id : Nat)
  /-- content obtained by decoding a JPEG the pipeline itself encoded -/
  | fromJpeg (quality : Nat) (optimize : Bool) (p : Pix)
  /-- `im.convert("RGB")` -/
  | convertRGB (p : Pix)
  /-- `im.resize((w, h), Image.LANCZOS)` -/
  | resized (w h : Nat) (p : Pix)
  /-- `ImageFilter.UnsharpMask(radius, percent, threshold)` -/
  | unsharp (radius : ℚ) (percent : Nat) (threshold : Nat) (p : Pix)
  /-- `ImageEnhance.Sharpness(im).enhance(factor)` -/
  | sharpness (factor : ℚ) (p : Pix)
  /-- `ImageEnhance.Contrast(im).enhance(factor)` -/
  | contrast (factor : ℚ) (p : Pix)
  /-- `ImageEnhance.Color(im).enhance(factor)` -/
  | color (factor : ℚ) (p : Pix)
  /-- `im.filter(ImageFilter.DETAIL)` -/
  | detail (p : Pix)
deriving DecidableEq, Repr

/-- A decoded image: dimensions plus abstract content. -/
structure Img : Type where
  width : Nat
  height : Nat
  pix : Pix
deriving DecidableEq, Repr

/-- Byte strings flowing through the pipeline: either raw input bytes (which
`Image.open` decodes to `some` image, or rejects — `none` — for
corrupt/unsupported input), or the JPEG bytes produced by `im.save(out,
format="JPEG", quality=..., optimize=...)`. -/
inductive Bytes : Type where
  | raw (decoded : Option Img)
  | jpeg (quality : Nat) (optimize : Bool) (img : Img)
deriving DecidableEq, Repr

/-- `Image.open(io.BytesIO(b))`: raw bytes decode to whatever they encode
(possibly nothing); a JPEG produced by the encoder decodes to an image of the
same dimensions whose content is the decoded-recompressed pixel data. -/
def decodeImage : Bytes → Option Img
  | .raw d => d
  | .jpeg q o im => some ⟨im.width, im.height, .fromJpeg q o im.pix⟩

/-- Embedding of `enhance_image_bytes_sync` (src/main.py lines 100-119).
A decode failure (`Image.open` raising) is `none`; otherwise the stages run in
the source's order: convert to RGB, conditional bounding resize with LANCZOS,
UnsharpMask(radius=1.5, percent=150, threshold=3), Sharpness 1.3,
Contrast 1.12, Color 1.08, the DETAIL filter, and a JPEG encode at quality 92
with optimize=True. -/
def enhance_image_bytes_sync (b : Bytes) : Option Bytes :=
  match decodeImage b with
  | none => none
  | some im0 =>
    let im1 : Img := ⟨im0.width, im0.height, .convertRGB im0.pix⟩
    let im2 : Img :=
      if 2000 < max im1.width im1.height then
        let L := max im1.width im1.height
        ⟨resizeDim im1.width L, resizeDim im1.height L,
          .resized (resizeDim im1.width L) (resizeDim im1.height L) im1.pix⟩
      else im1
    let im3 : Img := ⟨im2.width, im2.height, .unsharp 1.5 150 3 im2.pix⟩
    let im4 : Img := ⟨im3.width, im3.height, .sharpness 1.3 im3.pix⟩
    let im5 : Img := ⟨im4.width, im4.height, .contrast 1.12 im4.pix⟩
    let im6 : Img := ⟨im5.width, im5.height, .color 1.08 im5.pix⟩
    let im7 : Img := ⟨im6.width, im6.height, .detail im6.pix⟩
    some (.jpeg 92 true im7)

/-- Embedding of `enhance_image_bytes_local` (src/main.py lines 122-124): it
runs `enhance_image_bytes_sync` on a thread-pool executor and awaits the
result, so its value (or exception) is exactly the sync function's. -/
def enhance_image_bytes_local (b : Bytes) : Option Bytes :=
  enhance_image_bytes_sync b

/-- Truthiness of an optional environment variable: `if REPLICATE_API_TOKEN:`
is false when the variable is unset (`os.environ.get` returned `None`) or set
to the empty string. -/
def pyTruthyStr : Option String → Bool
  | none => false
  | some s => !(s == "")

/-- Embedding of `enhance_image_bytes` (src/main.py lines 127-135).  `token`
is `REPLICATE_API_TOKEN`; `tr` is Python truthiness of the produced bytes
(`if enhanced:`), kept abstract because no `Bytes` value in this model fixes
it.  When the token is truthy the code tries `enhance_image_bytes_local`
inside `try`: a raised exception (`none`) is swallowed and control falls to
the final line, which calls `enhance_image_bytes_local` again; a falsy result
also falls through to that final call. -/
def enhance_image_bytes (token : Option String) (tr : Bytes → Bool) (b : Bytes) :
    Option Bytes :=
  if pyTruthyStr token then
    match enhance_image_bytes_local b with
    | some enhanced =>
      if tr enhanced then some enhanced else enhance_image_bytes_local b
    | none => enhance_image_bytes_local b
  else
    enhance_image_bytes_local b

/-- `enhance_image_bytes_sync` as it runs inside the process: the only
module-level mutable binding in src/main.py is `verified_users`, and the
function's body references no module-level mutable state at all, so its
state-passing form returns the state unchanged and its result does not depend
on it. -/
def enhance_image_bytes_sync_st (s : Cache) (b : Bytes) : Option Bytes × Cache :=
  (enhance_image_bytes_sync b, s)

/-! ## Stage traces for the pipeline -/

/-- The names of the pipeline stages, with the parameters the spec assigns to
them.  The bounding-resize stage's output dimensions are not part of the stage
identity (they are the subject of the resize claims, handled separately). -/
inductive Stage : Type where
  | decodeNormalizeRGB
  | boundingResize
  | unsharpMask (radius : ℚ) (percent threshold : Nat)
  | sharpnessBoost (factor : ℚ)
  | contrastBoost (factor : ℚ)
  | colorBoost (factor : ℚ)
  | detailFilter
  | encodeJPEG (quality : Nat) (optimize : Bool)
deriving DecidableEq, Repr

/-- The stages recorded in a pixel-content term, innermost (first executed)
first. -/
def stagesOfPix : Pix → List Stage
  | .src _ => []
  | .fromJpeg _ _ _ => []
  | .convertRGB p => stagesOfPix p ++ [.decodeNormalizeRGB]
  | .resized _ _ p => stagesOfPix p ++ [.boundingResize]
  | .unsharp r pc th p => stagesOfPix p ++ [.unsharpMask r pc th]
  | .sharpness f p => stagesOfPix p ++ [.sharpnessBoost f]
  | .contrast f p => stagesOfPix p ++ [.contrastBoost f]
  | .color f p => stagesOfPix p ++ [.colorBoost f]
  | .detail p => stagesOfPix p ++ [.detailFilter]

/-- The stages the pipeline applied to produce its output on input `b`
(empty when the pipeline failed). -/
def pipelineTrace (b : Bytes) : List Stage :=
  match enhance_image_bytes_sync b with
  | some (.jpeg q o im) => stagesOfPix im.pix ++ [.encodeJPEG q o]
  | some (.raw _) => []
  | none => []

/-- The stage list written from the spec's words (§4.3 of spec.md): decode and
normalize to 3-channel RGB; bounding resize when the long edge exceeds 2000;
unsharp mask radius 1.5, amount 150%, threshold 3; sharpness 1.3; contrast
1.12; color 1.08; the fixed detail-enhancing convolution after the enhancement
factors; JPEG re-encode at quality 92 with optimization. -/
def specStages (w h : Nat) : List Stage :=
  [.decodeNormalizeRGB]
    ++ (if 2000 < max w h then [.boundingResize] else [])
    ++ [.unsharpMask 1.5 150 3, .sharpnessBoost 1.3, .contrastBoost 1.12,
        .colorBoost 1.08, .detailFilter, .encodeJPEG 92 true]

/-- The long edge of the image carried by a byte string (0 for undecodable
raw bytes). -/
def bytesLongEdge : Bytes → Nat
  | .raw none => 0
  | .raw (some im) => max im.width im.height
  | .jpeg _ _ im => max im.width im.height

/-- The dimensions of the image carried by a byte string. -/
def bytesDims : Bytes → Nat × Nat
  | .raw none => (0, 0)
  | .raw (some im) => (im.width, im.height)
  | .jpeg _ _ im => (im.width, im.height)

/-! ## Request orchestrator -/

/-- Observable side effects of `photo_handler`, in program order. -/
inductive Effect : Type where
  /-- `update.message.reply_text("❌ Please join the channel first...")` with
  the join keyboard -/
  | replyJoinPrompt
  /-- `context.bot.get_file` + `download_as_bytearray` -/
  | downloadFile
  /-- `update.message.reply_text("⏳ Enhancing your photo, please wait...")` -/
  | createPlaceholder
  /-- invocation of `enhance_image_bytes` -/
  | runEnhance
  /-- `msg.edit_text txt` -/
  | editPlaceholder (txt : String)
  /-- `context.bot.send_photo(...)` with the enhanced bytes -/
  | sendEnhancedPhoto
  /-- `msg.delete()` -/
  | deletePlaceholder
deriving DecidableEq, Repr

/-- The states of the spec's per-submission state machine (§4.4). -/
inductive HState : Type where
  | Start | Checking | Fetching | Enhancing | Delivering | Done | Rejected | Failed
deriving DecidableEq, Repr

/-- Whether the handler coroutine returned normally or let an exception
escape to the dispatcher. -/
inductive Outcome : Type where
  | normal
  | exn
deriving DecidableEq, Repr

/-- The external collaborator's responses for one photo submission. -/
structure TgEnv : Type where
  /-- outcome of `get_chat_member`: a raised exception or a status string -/
  oracle : Except String String
  /-- whether `get_file` / `download_as_bytearray` succeeds -/
  downloadOk : Bool
  /-- the downloaded photo bytes -/
  photoBytes : Bytes

/-- Result of one `photo_handler` run: how the coroutine ended, the cache
after the run, the side effects performed, and the spec states visited. -/
structure HResult : Type where
  outcome : Outcome
  cache : Cache
  effects : List Effect
  states : List HState

/-- The download/enhance/deliver tail of `photo_handler` (src/main.py lines
155-173), entered once the user is verified.  The spec states are annotated
onto the code points per §4.4: the `get_file`/download pair is **Fetching**,
the `enhance_image_bytes` call is **Enhancing**, the failure edit is
**Failed**, the `send_photo` is **Delivering** ending in **Done**.  Neither
the download nor the pipeline call sits inside a `try`, so a failure of
either escapes the handler (`Outcome.exn`) — in particular the pipeline
raising after the placeholder was created leaves the placeholder dangling. -/
def photo_fetch (token : Option String) (tr : Bytes → Bool) (c : Cache)
    (env : TgEnv) (visited : List HState) : HResult :=
  if env.downloadOk then
    match enhance_image_bytes token tr env.photoBytes with
    | none =>
      ⟨.exn, c, [.downloadFile, .createPlaceholder, .runEnhance],
        visited ++ [.Fetching, .Enhancing]⟩
    | some enhanced =>
      if tr enhanced then
        ⟨.normal, c,
          [.downloadFile, .createPlaceholder, .runEnhance, .sendEnhancedPhoto,
            .deletePlaceholder],
          visited ++ [.Fetching, .Enhancing, .Delivering, .Done]⟩
      else
        ⟨.normal, c,
          [.downloadFile, .createPlaceholder, .runEnhance,
            .editPlaceholder "Enhancement failed."],
          visited ++ [.Fetching, .Enhancing, .Failed]⟩
  else
    ⟨.exn, c, [.downloadFile], visited ++ [.Fetching]⟩

/-- Embedding of `photo_handler` (src/main.py lines 139-173) for a submission
by user `u` at time `t` with cache `c`.  If the cache does not verify the
user, the oracle adapter runs; a negative or failed check replies with the
join prompt and returns (**Rejected**); a positive check writes the cache
entry and the run proceeds to the fetch/enhance/deliver tail. -/
def photo_handler (token : Option String) (tr : Bytes → Bool) (c : Cache)
    (t u : Nat) (env : TgEnv) : HResult :=
  let v := is_verified c t u
  if v.1 then
    photo_fetch token tr v.2 env [.Start]
  else
    match check_user_membership env.oracle with
    | (true, _) =>
      photo_fetch token tr (mark_verified v.2 t VERIFIED_TTL u) env [.Start, .Checking]
    | (false, _) =>
      ⟨.normal, v.2, [.replyJoinPrompt], [.Start, .Checking, .Rejected]⟩

/-! ## Lemmas about double rounding -/

theorem int_log2_eq {q : ℚ} {k : ℤ} (hq : 0 < q) (h1 : (2:ℚ) ^ k ≤ q)
    (h2 : q < (2:ℚ) ^ (k + 1)) : Int.log 2 q = k := by
  have hb : 1 < 2 := one_lt_two
  have hle : k ≤ Int.log 2 q := by
    rw [← Int.zpow_le_iff_le_log hb hq]
    exact_mod_cast h1
  have hlt : Int.log 2 q < k + 1 := by
    rw [← Int.lt_zpow_iff_log_lt hb hq]
    exact_mod_cast h2
  omega

theorem roundHalfEven_eq_down {x : ℚ} {f : ℤ} (h1 : (f:ℚ) ≤ x)
    (h2 : x < (f:ℚ) + 1/2) : roundHalfEven x = f := by
  have hf : ⌊x⌋ = f := Int.floor_eq_iff.2 ⟨h1, by linarith⟩
  simp only [roundHalfEven, hf]
  rw [if_pos (by linarith : x - (f:ℚ) < 1/2)]

theorem roundHalfEven_eq_up {x : ℚ} {f : ℤ} (h1 : (f:ℚ) + 1/2 < x)
    (h2 : x < (f:ℚ) + 1) : roundHalfEven x = f + 1 := by
  have hf : ⌊x⌋ = f := Int.floor_eq_iff.2 ⟨by linarith, by linarith⟩
  simp only [roundHalfEven, hf]
  rw [if_neg (by linarith : ¬ (x - (f:ℚ) < 1/2)),
    if_pos (by linarith : (1:ℚ)/2 < x - (f:ℚ))]

theorem roundDbl_eq {q : ℚ} {k m : ℤ} (hq : 0 < q) (h1 : (2:ℚ) ^ k ≤ q)
    (h2 : q < (2:ℚ) ^ (k + 1)) (hm : roundHalfEven (q / 2 ^ (k - 52)) = m) :
    roundDbl q = (m:ℚ) * 2 ^ (k - 52) := by
  simp only [roundDbl, if_neg hq.ne', abs_of_pos hq, int_log2_eq hq h1 h2, hm]

theorem roundHalfEven_sub_le (x : ℚ) : |(roundHalfEven x : ℚ) - x| ≤ 1/2 := by
  have h1 : (⌊x⌋ : ℚ) ≤ x := Int.floor_le x
  have h2 : x < ⌊x⌋ + 1 := Int.lt_floor_add_one x
  simp only [roundHalfEven]
  by_cases hlt : x - (⌊x⌋:ℚ) < 1/2
  · rw [if_pos hlt, abs_le]
    constructor <;> linarith
  · rw [if_neg hlt]
    by_cases hgt : (1:ℚ)/2 < x - (⌊x⌋:ℚ)
    · rw [if_pos hgt, abs_le]
      push_cast
      constructor <;> linarith
    · have heq : x - (⌊x⌋:ℚ) = 1/2 := le_antisymm (not_lt.1 hgt) (not_lt.1 hlt)
      rw [if_neg hgt]
      by_cases he : ⌊x⌋ % 2 = 0
      · rw [if_pos he, abs_le]
        constructor <;> linarith
      · rw [if_neg he, abs_le]
        push_cast
        constructor <;> linarith

theorem roundDbl_err {q : ℚ} (hq : 0 < q) :
    |roundDbl q - q| ≤ q * (2:ℚ) ^ (-53 : ℤ) := by
  simp only [roundDbl, if_neg hq.ne', abs_of_pos hq]
  set e : ℤ := Int.log 2 q - 52 with he
  have h2pos : (0:ℚ) < (2:ℚ) ^ e := zpow_pos (by norm_num) e
  have hbase := roundHalfEven_sub_le (q / 2 ^ e)
  have hrw : (roundHalfEven (q / 2 ^ e) : ℚ) * 2 ^ e - q
      = ((roundHalfEven (q / 2 ^ e) : ℚ) - q / 2 ^ e) * 2 ^ e := by
    field_simp
  rw [hrw, abs_mul, abs_of_pos h2pos]
  have hstep : |(roundHalfEven (q / 2 ^ e) : ℚ) - q / 2 ^ e| * 2 ^ e
      ≤ (1/2) * 2 ^ e :=
    mul_le_mul_of_nonneg_right hbase h2pos.le
  refine hstep.trans ?_
  have hlog : (2:ℚ) ^ (Int.log 2 q) ≤ q := by
    have := Int.zpow_log_le_self (b := 2) (r := q) one_lt_two hq
    exact_mod_cast this
  have hsplit : (1/2 : ℚ) * 2 ^ e = (2:ℚ) ^ (Int.log 2 q) * (2:ℚ) ^ (-53 : ℤ) := by
    rw [he, ← zpow_add₀ (by norm_num : (2:ℚ) ≠ 0)]
    have : Int.log 2 q - 52 = (Int.log 2 q + -53) + 1 := by ring
    rw [this, zpow_add₀ (by norm_num : (2:ℚ) ≠ 0)]
    ring
  rw [hsplit]
  exact mul_le_mul_of_nonneg_right hlog (by positivity)

theorem roundDbl_le {q : ℚ} (hq : 0 < q) :
    roundDbl q ≤ q * (1 + (2:ℚ) ^ (-53 : ℤ)) := by
  have := roundDbl_err hq
  rw [abs_le] at this
  nlinarith [this.2]

theorem roundDbl_ge {q : ℚ} (hq : 0 < q) :
    q * (1 - (2:ℚ) ^ (-53 : ℤ)) ≤ roundDbl q := by
  have := roundDbl_err hq
  rw [abs_le] at this
  nlinarith [this.1]

theorem roundDbl_pos {q : ℚ} (hq : 0 < q) : 0 < roundDbl q := by
  have h := roundDbl_ge hq
  have hu : (2:ℚ) ^ (-53 : ℤ) < 1 := by
    rw [zpow_neg, inv_lt_one_iff₀]
    right
    norm_num
  nlinarith

theorem roundDbl_scale_2105 :
    roundDbl ((2000:ℚ)/2105) = 8557909030632771 * (2:ℚ)^(-53:ℤ) := by
  have hm : roundHalfEven (((2000:ℚ)/2105) / 2 ^ ((-1:ℤ) - 52)) = 8557909030632771 := by
    have harg : ((2000:ℚ)/2105) / 2 ^ ((-1:ℤ) - 52) = 18014398509481984000/2105 := by
      rw [show ((-1:ℤ) - 52) = -53 by ring]
      norm_num [zpow_neg]
    rw [harg]
    apply roundHalfEven_eq_down <;> norm_num
  have h := roundDbl_eq (q := (2000:ℚ)/2105) (k := -1) (m := 8557909030632771)
      (by norm_num) (by norm_num) (by norm_num) hm
  rw [h]
  norm_num

theorem roundDbl_x_2105 :
    roundDbl ((2105:ℚ) * (8557909030632771 * (2:ℚ)^(-53:ℤ)))
      = 8796093022207999 * (2:ℚ)^(-42:ℤ) := by
  have hm : roundHalfEven (((2105:ℚ) * (8557909030632771 * (2:ℚ)^(-53:ℤ))) / 2 ^ ((10:ℤ) - 52))
      = 8796093022207999 := by
    have harg : ((2105:ℚ) * (8557909030632771 * (2:ℚ)^(-53:ℤ))) / 2 ^ ((10:ℤ) - 52)
        = 18014398509481982955/2048 := by
      rw [show ((10:ℤ) - 52) = -42 by ring]
      norm_num [zpow_neg]
    rw [harg]
    apply roundHalfEven_eq_down <;> norm_num
  have h := roundDbl_eq (q := (2105:ℚ) * (8557909030632771 * (2:ℚ)^(-53:ℤ)))
      (k := 10) (m := 8796093022207999)
      (by norm_num) (by norm_num) (by norm_num) hm
  rw [h]
  norm_num

theorem resizeDim_2105 : resizeDim 2105 2105 = 1999 := by
  unfold resizeDim
  have hcast : ((2105:ℕ):ℚ) = (2105:ℚ) := by norm_num
  rw [hcast, roundDbl_scale_2105, roundDbl_x_2105]
  have hfl : ⌊(8796093022207999:ℚ) * (2:ℚ)^(-42:ℤ)⌋ = 1999 := by
    apply Int.floor_eq_iff.2
    constructor <;> norm_num
  rw [hfl]
  rfl

theorem roundDbl_scale_2001 :
    roundDbl ((2000:ℚ)/2001) = 9002697905788098 * (2:ℚ)^(-53:ℤ) := by
  have hm : roundHalfEven (((2000:ℚ)/2001) / 2 ^ ((-1:ℤ) - 52)) = 9002697905788098 := by
    have harg : ((2000:ℚ)/2001) / 2 ^ ((-1:ℤ) - 52) = 18014398509481984000/2001 := by
      rw [show ((-1:ℤ) - 52) = -53 by ring]
      norm_num [zpow_neg]
    rw [harg]
    rw [roundHalfEven_eq_up (f := 9002697905788097) (by norm_num) (by norm_num)]
    norm_num
  have h := roundDbl_eq (q := (2000:ℚ)/2001) (k := -1) (m := 9002697905788098)
      (by norm_num) (by norm_num) (by norm_num) hm
  rw [h]
  norm_num

theorem roundDbl_x_2001 :
    roundDbl ((2001:ℚ) * (9002697905788098 * (2:ℚ)^(-53:ℤ)))
      = 8796093022208000 * (2:ℚ)^(-42:ℤ) := by
  have hm : roundHalfEven (((2001:ℚ) * (9002697905788098 * (2:ℚ)^(-53:ℤ))) / 2 ^ ((10:ℤ) - 52))
      = 8796093022208000 := by
    have harg : ((2001:ℚ) * (9002697905788098 * (2:ℚ)^(-53:ℤ))) / 2 ^ ((10:ℤ) - 52)
        = 18014398509481984098/2048 := by
      rw [show ((10:ℤ) - 52) = -42 by ring]
      norm_num [zpow_neg]
    rw [harg]
    apply roundHalfEven_eq_down <;> norm_num
  have h := roundDbl_eq (q := (2001:ℚ) * (9002697905788098 * (2:ℚ)^(-53:ℤ)))
      (k := 10) (m := 8796093022208000)
      (by norm_num) (by norm_num) (by norm_num) hm
  rw [h]
  norm_num

theorem resizeDim_2001 : resizeDim 2001 2001 = 2000 := by
  unfold resizeDim
  have hcast : ((2001:ℕ):ℚ) = (2001:ℚ) := by norm_num
  rw [hcast, roundDbl_scale_2001, roundDbl_x_2001]
  have hfl : ⌊(8796093022208000:ℚ) * (2:ℚ)^(-42:ℤ)⌋ = 2000 := by
    apply Int.floor_eq_iff.2
    constructor <;> norm_num
  rw [hfl]
  rfl






theorem resizeDim_le_2000 {d L : Nat} (hL : 2000 < L) (hd : d ≤ L) :
    resizeDim d L ≤ 2000 := by
  have hL0 : (0:ℚ) < (L:ℚ) := by
    have : (0:ℕ) < L := by omega
    exact_mod_cast this
  rcases Nat.eq_zero_or_pos d with hd0 | hd1
  · subst hd0
    simp [resizeDim, roundDbl]
  · have hq : (0:ℚ) < 2000/(L:ℚ) := by positivity
    have hspos := roundDbl_pos hq
    have hsle := roundDbl_le hq
    have hupos : (0:ℚ) < (2:ℚ)^(-53:ℤ) := by positivity
    have hd0 : (0:ℚ) < (d:ℚ) := by exact_mod_cast hd1
    have hdL : (d:ℚ) ≤ (L:ℚ) := by exact_mod_cast hd
    have hxpos : (0:ℚ) < (d:ℚ) * roundDbl (2000/(L:ℚ)) := mul_pos hd0 hspos
    have hxle : (d:ℚ) * roundDbl (2000/(L:ℚ)) ≤ 2000 * (1 + (2:ℚ)^(-53:ℤ)) := by
      calc (d:ℚ) * roundDbl (2000/(L:ℚ))
          ≤ (L:ℚ) * roundDbl (2000/(L:ℚ)) :=
            mul_le_mul_of_nonneg_right hdL hspos.le
        _ ≤ (L:ℚ) * ((2000/(L:ℚ)) * (1 + (2:ℚ)^(-53:ℤ))) :=
            mul_le_mul_of_nonneg_left hsle hL0.le
        _ = 2000 * (1 + (2:ℚ)^(-53:ℤ)) := by
            field_simp
            ring
    have hr2le := roundDbl_le hxpos
    have hlt : roundDbl ((d:ℚ) * roundDbl (2000/(L:ℚ))) < 2001 := by
      have hmono : ((d:ℚ) * roundDbl (2000/(L:ℚ))) * (1 + (2:ℚ)^(-53:ℤ))
          ≤ (2000 * (1 + (2:ℚ)^(-53:ℤ))) * (1 + (2:ℚ)^(-53:ℤ)) := by
        nlinarith
      have hnum : (2000 * (1 + (2:ℚ)^(-53:ℤ))) * (1 + (2:ℚ)^(-53:ℤ)) < 2001 := by
        norm_num
      linarith
    have hfl : ⌊roundDbl ((d:ℚ) * roundDbl (2000/(L:ℚ)))⌋ < 2001 := by
      rw [Int.floor_lt]
      exact_mod_cast hlt
    unfold resizeDim
    omega

theorem resizeDim_self_ge_1999 {L : Nat} (hL : 2000 < L) : 1999 ≤ resizeDim L L := by
  have hL0 : (0:ℚ) < (L:ℚ) := by
    have : (0:ℕ) < L := by omega
    exact_mod_cast this
  have hq : (0:ℚ) < 2000/(L:ℚ) := by positivity
  have hspos := roundDbl_pos hq
  have hsge := roundDbl_ge hq
  have hupos : (0:ℚ) < (2:ℚ)^(-53:ℤ) := by positivity
  have hxpos : (0:ℚ) < (L:ℚ) * roundDbl (2000/(L:ℚ)) := mul_pos hL0 hspos
  have hxge : 2000 * (1 - (2:ℚ)^(-53:ℤ)) ≤ (L:ℚ) * roundDbl (2000/(L:ℚ)) := by
    calc 2000 * (1 - (2:ℚ)^(-53:ℤ))
        = (L:ℚ) * ((2000/(L:ℚ)) * (1 - (2:ℚ)^(-53:ℤ))) := by
          field_simp
          ring
      _ ≤ (L:ℚ) * roundDbl (2000/(L:ℚ)) := mul_le_mul_of_nonneg_left hsge hL0.le
  have hr2ge := roundDbl_ge hxpos
  have hgt : (1999:ℚ) ≤ roundDbl ((L:ℚ) * roundDbl (2000/(L:ℚ))) := by
    have hmono : (2000 * (1 - (2:ℚ)^(-53:ℤ))) * (1 - (2:ℚ)^(-53:ℤ))
        ≤ ((L:ℚ) * roundDbl (2000/(L:ℚ))) * (1 - (2:ℚ)^(-53:ℤ)) := by
      have hle1 : (2:ℚ)^(-53:ℤ) < 1 := by
        rw [zpow_neg, inv_lt_one_iff₀]
        right
        norm_num
      nlinarith
    have hnum : (1999:ℚ) ≤ (2000 * (1 - (2:ℚ)^(-53:ℤ))) * (1 - (2:ℚ)^(-53:ℤ)) := by
      norm_num
    linarith
  have hfl : (1999:ℤ) ≤ ⌊roundDbl ((L:ℚ) * roundDbl (2000/(L:ℚ)))⌋ := by
    rw [Int.le_floor]
    exact_mod_cast hgt
  unfold resizeDim
  omega

/-! ## Shape of the pipeline's output -/

/-- Unfolding of `enhance_image_bytes_sync` on a decodable input: the output
is a JPEG at quality 92 with optimize on, whose content term records the full
stage chain. -/
theorem enhance_sync_decode_some {b : Bytes} {im0 : Img}
    (h : decodeImage b = some im0) :
    enhance_image_bytes_sync b = some (.jpeg 92 true
      ⟨(if 2000 < max im0.width im0.height
          then resizeDim im0.width (max im0.width im0.height) else im0.width),
        (if 2000 < max im0.width im0.height
          then resizeDim im0.height (max im0.width im0.height) else im0.height),
        .detail (.color 1.08 (.contrast 1.12 (.sharpness 1.3 (.unsharp 1.5 150 3
          (if 2000 < max im0.width im0.height
            then .resized (resizeDim im0.width (max im0.width im0.height))
                (resizeDim im0.height (max im0.width im0.height))
                (.convertRGB im0.pix)
            else .convertRGB im0.pix)))))⟩) := by
  by_cases hc : 2000 < max im0.width im0.height <;>
    simp [enhance_image_bytes_sync, h, hc]

theorem enhance_sync_decode_none {b : Bytes} (h : decodeImage b = none) :
    enhance_image_bytes_sync b = none := by
  simp [enhance_image_bytes_sync, h]

/-! ## Cache helper lemmas -/

theorem is_verified_snd_apply (c : Cache) (t u v : Nat) (hv : v ≠ u) :
    (is_verified c t u).2 v = c v := by
  rcases hg : cacheGet c u with _ | exp
  · simp [is_verified, hg]
  · by_cases h0 : exp = 0
    · simp [is_verified, hg, h0]
    · by_cases hlt : exp < t
      · simp [is_verified, hg, h0, hlt, cacheDel, hv]
      · simp [is_verified, hg, h0, hlt]

theorem is_verified_snd_of_none {c : Cache} {t u : Nat}
    (h : cacheGet c u = none) : (is_verified c t u).2 = c := by
  simp [is_verified, h]

/-! ## Claim theorems -/

/-- C2 (counterexample): with a single cache entry for user 1 whose expiry is
5, at current time exactly 5 the entry's expiry is not strictly after the
current time, yet `is_verified` returns `true` — the code expires an entry
only when `time.time() > exp` is strict, so the claimed "strictly after" iff
fails at the boundary `t = expiry`. -/
theorem C2_boundary_counterexample :
    (is_verified (cacheSet emptyCache 1 5) 5 1).1 = true
    ∧ cacheGet (cacheSet emptyCache 1 5) 1 = some 5
    ∧ ¬ (5 < 5) := by
  refine ⟨rfl, rfl, by omega⟩

/-- C2 (amended): `is_verified` returns `true` iff an entry exists for the
user whose expiry is non-zero and at-or-after (`≥`, not strictly after) the
current time; an entry with non-zero expiry strictly before the current time
makes it return `false` and is removed (lazy eviction); and after
`mark_verified(u, ttl)` with `ttl > 0`, once the current time strictly
exceeds the mark time plus ttl, `is_verified` returns `false` (it is a total
function, so in particular it does not throw) and removes the expired
entry. -/
theorem C2_cache_contract : ∀ (c : Cache) (t u : Nat),
    ((is_verified c t u).1 = true ↔ ∃ e, cacheGet c u = some e ∧ e ≠ 0 ∧ t ≤ e)
    ∧ (∀ e, cacheGet c u = some e → e ≠ 0 → e < t →
        (is_verified c t u).1 = false ∧ (is_verified c t u).2 = cacheDel c u)
    ∧ (∀ t0 ttl, 0 < ttl → t0 + ttl < t →
        (is_verified (mark_verified c t0 ttl u) t u).1 = false
        ∧ (is_verified (mark_verified c t0 ttl u) t u).2
            = cacheDel (mark_verified c t0 ttl u) u) := by
  intro c t u
  have hmark : ∀ t0 ttl, cacheGet (mark_verified c t0 ttl u) u = some (t0 + ttl) := by
    intro t0 ttl
    simp [mark_verified, cacheSet, cacheGet]
  refine ⟨?_, ?_, ?_⟩
  · rcases hg : cacheGet c u with _ | exp
    · simp [is_verified, hg]
    · by_cases h0 : exp = 0
      · subst h0
        simp [is_verified, hg]
      · by_cases hlt : exp < t
        · simp only [is_verified, hg, h0, hlt, if_true, if_false]
          constructor
          · intro hfalse
            cases hfalse
          · rintro ⟨e, he, hne, hte⟩
            cases he
            omega
        · simp only [is_verified, hg, h0, hlt, if_false]
          constructor
          · intro _
            exact ⟨exp, rfl, h0, by omega⟩
          · intro _
            trivial
  · intro e he hne hlt
    constructor <;> simp [is_verified, he, hne, hlt]
  · intro t0 ttl httl hexp
    have he := hmark t0 ttl
    have hne : ¬ (t0 = 0 ∧ ttl = 0) := by omega
    constructor <;> simp [is_verified, he, hne, (by omega : t0 + ttl < t)]

/-- C2 (witness): mark user 4 at time 0 with ttl 1; at time 2 the elapsed
time strictly exceeds the ttl, `is_verified` returns false and evicts the
entry. -/
theorem C2_cache_contract_witness :
    (is_verified (mark_verified emptyCache 0 1 4) 2 4).1 = false
    ∧ (is_verified (mark_verified emptyCache 0 1 4) 2 4).2
        = cacheDel (mark_verified emptyCache 0 1 4) 4 :=
  (C2_cache_contract emptyCache 2 4).2.2 0 1 (by omega) (by omega)

/-- C4: the seven status strings named by the spec map as claimed — the four
member-like statuses to `(True, None)` (Verified) and "left", "kicked",
"restricted" to `(False, "not_member")` (NotMember) — and the matching is
case-insensitive substring matching against the fixed allow-set (witnessed by
the upper-case variant). -/
theorem C4_status_mapping :
    check_user_membership (.ok "administrator") = (true, none)
    ∧ check_user_membership (.ok "member") = (true, none)
    ∧ check_user_membership (.ok "creator") = (true, none)
    ∧ check_user_membership (.ok "owner") = (true, none)
    ∧ check_user_membership (.ok "left") = (false, some "not_member")
    ∧ check_user_membership (.ok "kicked") = (false, some "not_member")
    ∧ check_user_membership (.ok "restricted") = (false, some "not_member")
    ∧ check_user_membership (.ok "OWNER") = (true, none) := by
  decide

/-- C5: the membership check makes exactly one external call (the call index
advances by exactly one — no retry), it is a total function (never raises),
an exception from the external call is mapped to the failed-check result
`(False, "error")`, and the orchestrator treats that failed check as "not
verified", rejecting the submission. -/
theorem C5_failsoft : ∀ (o : Nat → Except String String) (n : Nat),
    (check_user_membership_counted o n).2 = n + 1
    ∧ (∀ e, o n = .error e →
        (check_user_membership_counted o n).1 = (false, some "error"))
    ∧ (∀ (token : Option String) (tr : Bytes → Bool) (c : Cache) (t u : Nat)
        (dl : Bool) (pb : Bytes) (e : String),
        (is_verified c t u).1 = false →
        (photo_handler token tr c t u ⟨.error e, dl, pb⟩).states
          = [.Start, .Checking, .Rejected]) := by
  intro o n
  refine ⟨rfl, ?_, ?_⟩
  · intro e he
    simp [check_user_membership_counted, he, check_user_membership]
  · intro token tr c t u dl pb e hv
    simp [photo_handler, hv, check_user_membership]

/-- C5 (witness): a network error on the single attempt, at call index 0. -/
theorem C5_failsoft_witness :
    (check_user_membership_counted (fun _ => .error "network down") 0).2 = 0 + 1
    ∧ (check_user_membership_counted (fun _ => .error "network down") 0).1
        = (false, some "error") :=
  ⟨(C5_failsoft (fun _ => .error "network down") 0).1,
    (C5_failsoft (fun _ => .error "network down") 0).2.1 "network down" rfl⟩

/-- C7: the pipeline run in its process context neither reads nor writes the
process's mutable state (the verification cache), so its output is the same
under any two states, the state is returned unchanged, and repeated
invocations on the same input bytes produce identical outputs (no hidden
randomness, no retained state). -/
theorem C7_pure_deterministic : ∀ (s1 s2 : Cache) (b : Bytes),
    (enhance_image_bytes_sync_st s1 b).1 = (enhance_image_bytes_sync_st s2 b).1
    ∧ (enhance_image_bytes_sync_st s1 b).2 = s1
    ∧ (enhance_image_bytes_sync_st ((enhance_image_bytes_sync_st s1 b).2) b).1
        = (enhance_image_bytes_sync_st s1 b).1 :=
  fun _ _ _ => ⟨rfl, rfl, rfl⟩

/-- C10: `enhance_image_bytes` returns exactly the result of
`enhance_image_bytes_local`, for every value of `REPLICATE_API_TOKEN` and
every truthiness of the produced bytes: the token-guarded branch calls the
local pipeline itself, so the remote path never executes and the token never
changes the result. -/
theorem C10_token_irrelevant : ∀ (token : Option String) (tr : Bytes → Bool)
    (b : Bytes), enhance_image_bytes token tr b = enhance_image_bytes_local b := by
  intro token tr b
  unfold enhance_image_bytes
  by_cases ht : pyTruthyStr token
  · rw [if_pos ht]
    rcases hl : enhance_image_bytes_local b with _ | enhanced
    · simp [hl]
    · simp only [hl]
      by_cases htr : tr enhanced
      · rw [if_pos htr]
      · rw [if_neg htr]
  · rw [if_neg ht]

/-- C3 (counterexample): a 2105×2105 input is over the 2000 bound, so the
claim says its long edge is scaled to exactly 2000; the code's
double-precision `int(2105 * (2000/2105))` yields 1999 (the rounded product
is 1999.9999999999998, truncated by `int`). -/
theorem C3_exact_2000_counterexample :
    (enhance_image_bytes_sync (.raw (some ⟨2105, 2105, .src 0⟩))).map bytesLongEdge
      = some 1999
    ∧ 2000 < max 2105 2105 ∧ (1999 : Nat) ≠ 2000 := by
  refine ⟨?_, by norm_num, by norm_num⟩
  rw [@enhance_sync_decode_some (.raw (some ⟨2105, 2105, .src 0⟩))
    ⟨2105, 2105, .src 0⟩ rfl]
  norm_num [bytesLongEdge, resizeDim_2105]

/-- C3 (amended): on a decoded image, if the long edge exceeds 2000 the
pipeline scales both dimensions by the double-precision factor `2000 /
max(width, height)` with truncation (`resizeDim`), and the resulting long
edge is at most 2000 but may be 1999 (one pixel short) for some sizes; a long
edge of exactly 2001 does scale to exactly 2000; an image whose long edge is
at most 2000 — in particular exactly 2000 — keeps its native resolution. -/
theorem C3_bounding_resize : ∀ (b : Bytes) (im0 : Img),
    decodeImage b = some im0 →
    ∃ out, enhance_image_bytes_sync b = some out
    ∧ (max im0.width im0.height ≤ 2000 →
        bytesDims out = (im0.width, im0.height))
    ∧ (2000 < max im0.width im0.height →
        bytesDims out = (resizeDim im0.width (max im0.width im0.height),
            resizeDim im0.height (max im0.width im0.height))
        ∧ 1999 ≤ bytesLongEdge out ∧ bytesLongEdge out ≤ 2000)
    ∧ (max im0.width im0.height = 2001 → bytesLongEdge out = 2000) := by
  intro b im0 h
  refine ⟨_, enhance_sync_decode_some h, ?_, ?_, ?_⟩
  · intro hle
    have hc : ¬ (2000 < max im0.width im0.height) := not_lt.2 hle
    simp [bytesDims, hc]
  · intro hc
    refine ⟨by simp [bytesDims, hc], ?_, ?_⟩
    · simp only [bytesLongEdge, if_pos hc]
      rcases max_choice im0.width im0.height with hm | hm
      · calc (1999:Nat) ≤ resizeDim im0.width (max im0.width im0.height) := by
              rw [hm]
              exact resizeDim_self_ge_1999 (hm ▸ hc)
          _ ≤ _ := le_max_left _ _
      · calc (1999:Nat) ≤ resizeDim im0.height (max im0.width im0.height) := by
              rw [hm]
              exact resizeDim_self_ge_1999 (hm ▸ hc)
          _ ≤ _ := le_max_right _ _
    · simp only [bytesLongEdge, if_pos hc]
      exact max_le (resizeDim_le_2000 hc (le_max_left _ _))
        (resizeDim_le_2000 hc (le_max_right _ _))
  · intro h2001
    have hc : 2000 < max im0.width im0.height := by omega
    simp only [bytesLongEdge, if_pos hc]
    rcases max_choice im0.width im0.height with hm | hm
    · have hw : im0.width = 2001 := by omega
      have hh : im0.height ≤ 2001 := by
        have := le_max_right im0.width im0.height
        omega
      rw [h2001, hw]
      have hle : resizeDim im0.height 2001 ≤ 2000 :=
        resizeDim_le_2000 (by omega) (by omega)
      rw [resizeDim_2001]
      omega
    · have hw : im0.height = 2001 := by omega
      have hh : im0.width ≤ 2001 := by
        have := le_max_left im0.width im0.height
        omega
      rw [h2001, hw]
      have hle : resizeDim im0.width 2001 ≤ 2000 :=
        resizeDim_le_2000 (by omega) (by omega)
      rw [resizeDim_2001]
      omega

/-- C3 (witness): a 2001×2001 input: the resize branch applies and the
output's long edge is exactly 2000. -/
theorem C3_bounding_resize_witness :
    ∃ out, enhance_image_bytes_sync (.raw (some ⟨2001, 2001, .src 0⟩)) = some out
    ∧ (max 2001 2001 ≤ 2000 → bytesDims out = (2001, 2001))
    ∧ (2000 < max 2001 2001 →
        bytesDims out = (resizeDim 2001 (max 2001 2001),
            resizeDim 2001 (max 2001 2001))
        ∧ 1999 ≤ bytesLongEdge out ∧ bytesLongEdge out ≤ 2000)
    ∧ (max 2001 2001 = 2001 → bytesLongEdge out = 2000) :=
  C3_bounding_resize (.raw (some ⟨2001, 2001, .src 0⟩)) ⟨2001, 2001, .src 0⟩ rfl

/-- C6: on every decodable input the pipeline applies exactly the spec's
stages in the spec's order — RGB normalization, the bounding resize exactly
when the long edge exceeds 2000, UnsharpMask(1.5, 150%, 3), sharpness 1.3,
contrast 1.12, color 1.08, the DETAIL convolution after the enhancement
factors, and a JPEG re-encode at quality 92 with optimize on — appended to
whatever stages the input's content already carried. -/
theorem C6_stage_order : ∀ (b : Bytes) (im0 : Img),
    decodeImage b = some im0 →
    pipelineTrace b = stagesOfPix im0.pix ++ specStages im0.width im0.height := by
  intro b im0 h
  simp only [pipelineTrace, enhance_sync_decode_some h]
  by_cases hc : 2000 < max im0.width im0.height <;>
    simp [hc, stagesOfPix, specStages]

/-- C6 (witness): a 10×20 image decoded from raw input bytes. -/
theorem C6_stage_order_witness :
    pipelineTrace (.raw (some ⟨10, 20, .src 3⟩))
      = stagesOfPix (Pix.src 3) ++ specStages 10 20 :=
  C6_stage_order (.raw (some ⟨10, 20, .src 3⟩)) ⟨10, 20, .src 3⟩ rfl

/-- Every successful pipeline output is a quality-92 optimized JPEG whose
dimensions are both at most 2000. -/
theorem enhance_sync_out_shape {b out : Bytes}
    (h : enhance_image_bytes_sync b = some out) :
    ∃ im, out = .jpeg 92 true im ∧ im.width ≤ 2000 ∧ im.height ≤ 2000 := by
  rcases hd : decodeImage b with _ | im0
  · rw [enhance_sync_decode_none hd] at h
    cases h
  · rw [enhance_sync_decode_some hd] at h
    have hout := Option.some.inj h
    subst hout
    refine ⟨_, rfl, ?_, ?_⟩
    · by_cases hc : 2000 < max im0.width im0.height
      · simp only [if_pos hc]
        exact resizeDim_le_2000 hc (le_max_left _ _)
      · simp only [if_neg hc]
        exact le_trans (le_max_left _ _) (not_lt.1 hc)
    · by_cases hc : 2000 < max im0.width im0.height
      · simp only [if_pos hc]
        exact resizeDim_le_2000 hc (le_max_right _ _)
      · simp only [if_neg hc]
        exact le_trans (le_max_right _ _) (not_lt.1 hc)

/-- C8: feeding a successful pipeline output back into the pipeline succeeds
(does not throw), and the long edge of the second output is at most 2000. -/
theorem C8_roundtrip : ∀ (b out : Bytes),
    enhance_image_bytes_sync b = some out →
    ∃ out', enhance_image_bytes_sync out = some out'
      ∧ bytesLongEdge out' ≤ 2000 := by
  intro b out h
  obtain ⟨im, rfl, hW, hH⟩ := enhance_sync_out_shape h
  have hdec : decodeImage (.jpeg 92 true im)
      = some ⟨im.width, im.height, .fromJpeg 92 true im.pix⟩ := rfl
  have h2 := enhance_sync_decode_some hdec
  have hc2 : ¬ (2000 < max im.width im.height) := not_lt.2 (max_le hW hH)
  refine ⟨_, h2, ?_⟩
  simp only [bytesLongEdge, hc2, if_neg hc2]
  exact max_le hW hH

/-- C8 (witness): the output of a 10×20 enhancement, fed back in. -/
theorem C8_roundtrip_witness :
    ∃ out', enhance_image_bytes_sync (.jpeg 92 true ⟨10, 20,
        .detail (.color 1.08 (.contrast 1.12 (.sharpness 1.3 (.unsharp 1.5 150 3
          (.convertRGB (.src 0))))))⟩) = some out'
      ∧ bytesLongEdge out' ≤ 2000 :=
  C8_roundtrip (.raw (some ⟨10, 20, .src 0⟩)) _ rfl

/-- C9 (counterexample): user 7 has an expired cache entry (expiry 5, current
time 10) and the oracle reports "left"; the run rejects as claimed, but the
cache is not left unchanged: `is_verified` lazily evicts the expired entry,
so the entry for user 7 disappears. -/
theorem C9_cache_changed_counterexample :
    (photo_handler none (fun _ => true) (cacheSet emptyCache 7 5) 10 7
        ⟨.ok "left", true, .raw none⟩).cache 7 = none
    ∧ cacheSet emptyCache 7 5 7 = some 5 := by
  constructor <;> rfl

/-- C9 (amended): for a user the cache does not verify, when the membership
check reports not-a-member or fails, the orchestrator runs
Start → Checking → Rejected, shows only the join prompt (no download, no
enhancement), returns normally, and leaves the cache unchanged except for the
lazy eviction performed by the cache lookup itself: entries of other users
are untouched, and if the submitting user had no entry the cache is exactly
unchanged. -/
theorem C9_reject_flow : ∀ (token : Option String) (tr : Bytes → Bool)
    (c : Cache) (t u : Nat) (env : TgEnv),
    (is_verified c t u).1 = false →
    (check_user_membership env.oracle).1 = false →
    (photo_handler token tr c t u env).states = [.Start, .Checking, .Rejected]
    ∧ (photo_handler token tr c t u env).effects = [.replyJoinPrompt]
    ∧ (photo_handler token tr c t u env).outcome = .normal
    ∧ (photo_handler token tr c t u env).cache = (is_verified c t u).2
    ∧ (∀ v, v ≠ u → (photo_handler token tr c t u env).cache v = c v)
    ∧ (cacheGet c u = none → (photo_handler token tr c t u env).cache = c) := by
  intro token tr c t u env hv hm
  rcases hc : check_user_membership env.oracle with ⟨ok, reason⟩
  rw [hc] at hm
  simp only at hm
  subst hm
  have hrun : photo_handler token tr c t u env
      = ⟨.normal, (is_verified c t u).2, [.replyJoinPrompt],
          [.Start, .Checking, .Rejected]⟩ := by
    simp only [photo_handler, hv, Bool.false_eq_true, if_false, hc]
  rw [hrun]
  refine ⟨rfl, rfl, rfl, rfl, ?_, ?_⟩
  · intro v hvne
    exact is_verified_snd_apply c t u v hvne
  · intro hnone
    exact is_verified_snd_of_none hnone

/-- C9 (witness): a user with no cache entry and a "kicked" status. -/
theorem C9_reject_flow_witness :
    (photo_handler none (fun _ => true) emptyCache 10 7
        ⟨.ok "kicked", true, .raw none⟩).states = [.Start, .Checking, .Rejected]
    ∧ (photo_handler none (fun _ => true) emptyCache 10 7
        ⟨.ok "kicked", true, .raw none⟩).effects = [.replyJoinPrompt]
    ∧ (photo_handler none (fun _ => true) emptyCache 10 7
        ⟨.ok "kicked", true, .raw none⟩).outcome = .normal
    ∧ (photo_handler none (fun _ => true) emptyCache 10 7
        ⟨.ok "kicked", true, .raw none⟩).cache = (is_verified emptyCache 10 7).2
    ∧ (∀ v, v ≠ 7 → (photo_handler none (fun _ => true) emptyCache 10 7
        ⟨.ok "kicked", true, .raw none⟩).cache v = emptyCache v)
    ∧ (cacheGet emptyCache 7 = none → (photo_handler none (fun _ => true)
        emptyCache 10 7 ⟨.ok "kicked", true, .raw none⟩).cache = emptyCache) :=
  C9_reject_flow none (fun _ => true) emptyCache 10 7
    ⟨.ok "kicked", true, .raw none⟩ rfl rfl

/-- C1 (code bug, evaluated at the failing input): a verified user (cache
entry with expiry 99 at time 10) submits undecodable photo bytes; the
download succeeds and the progress placeholder is created, but the pipeline
raises, the exception escapes `photo_handler` (no `try` surrounds the
`enhance_image_bytes` call), no Failed state is reached, no failure message
is shown, and the placeholder is neither edited nor deleted — left
dangling. -/
theorem C1_pipeline_exception_escapes :
    (photo_handler none (fun _ => true) (cacheSet emptyCache 7 99) 10 7
        ⟨.ok "member", true, .raw none⟩).outcome = .exn
    ∧ (photo_handler none (fun _ => true) (cacheSet emptyCache 7 99) 10 7
        ⟨.ok "member", true, .raw none⟩).effects
        = [.downloadFile, .createPlaceholder, .runEnhance]
    ∧ Effect.createPlaceholder ∈ (photo_handler none (fun _ => true)
        (cacheSet emptyCache 7 99) 10 7 ⟨.ok "member", true, .raw none⟩).effects
    ∧ Effect.deletePlaceholder ∉ (photo_handler none (fun _ => true)
        (cacheSet emptyCache 7 99) 10 7 ⟨.ok "member", true, .raw none⟩).effects
    ∧ Effect.editPlaceholder "Enhancement failed." ∉ (photo_handler none
        (fun _ => true) (cacheSet emptyCache 7 99) 10 7
        ⟨.ok "member", true, .raw none⟩).effects
    ∧ HState.Failed ∉ (photo_handler none (fun _ => true)
        (cacheSet emptyCache 7 99) 10 7 ⟨.ok "member", true, .raw none⟩).states := by
  decide

end PhotoBot
